import Mathlib

/-!
Verification of the Chambers Protocol repository.

Part 1 embeds the only executable source file of the repository,
`supabase/functions/stripe-webhook/index.ts` (the provisioning webhook),
as a pure Lean function: the nondeterministic environment inputs
(signature-verification outcome, the random UUID produced by
`crypto.randomUUID()`, and the database insert outcome) become explicit
parameters, and the handler's observable effects (HTTP status, rows
inserted into `api_keys`, emails sent through Resend) become the result.

Part 2 models the atomic billing core (Balance Store, Consume Gate,
Audit Ledger).  Its implementation (`server.py` and the Postgres
`consume_credits` RPC) is not among the repository sources, only its
documentation; those definitions are modelled from the spec and say so
in their doc comments.
-/

/-- A hexadecimal digit as produced by `crypto.randomUUID()` (lowercase). -/
def isHexChar (c : Char) : Bool :=
  (('0' ≤ c) && (c ≤ '9')) || (('a' ≤ c) && (c ≤ 'f'))

/-- The canonical 8-4-4-4-12 shape of the string returned by
`crypto.randomUUID()`: five all-hex groups joined by `'-'`. -/
def IsUuidFormat (u : List Char) : Prop :=
  ∃ a b c d e : List Char,
    a.length = 8 ∧ b.length = 4 ∧ c.length = 4 ∧ d.length = 4 ∧ e.length = 12 ∧
    (∀ x ∈ a ++ b ++ c ++ d ++ e, isHexChar x = true) ∧
    u = a ++ ['-'] ++ b ++ ['-'] ++ c ++ ['-'] ++ d ++ ['-'] ++ e

/-- The webhook's `uuid.replace(dash, "")` with the global dash regex:
drop every dash. -/
def stripDashes (u : List Char) : List Char := u.filter (fun c => c != '-')

/-- Step 4 of the webhook: `newApiKey` is the literal "chambers_sk_"
followed by `crypto.randomUUID()` with its dashes removed. -/
def mintKey (uuid : List Char) : List Char := "chambers_sk_".data ++ stripDashes uuid

/-- The fields of a Stripe event the handler reads: `event.type` and
`event.data.object.customer_details?.email`. -/
structure WebhookEvent where
  type : String
  customerEmail : Option String
deriving DecidableEq

/-- A row of the `api_keys` table as the webhook inserts it (step 5 of the
source: `client_email`, `api_key_hash`, `credits_remaining`, `is_active`). -/
structure ApiKeyRecord where
  client_email : String
  api_key_hash : List Char
  credits_remaining : Nat
  is_active : Bool
deriving DecidableEq

/-- An email dispatched through `resend.emails.send`; `toAddr` stands for
the source's `to` field (a Lean keyword) and `htmlKey` is the API key
interpolated into the html body. -/
structure EmailMessage where
  toAddr : String
  subject : String
  htmlKey : List Char
deriving DecidableEq

/-- Observable outcome of one webhook request: the HTTP status of the
response, the rows successfully inserted into `api_keys`, and the emails
sent. -/
structure WebhookOutcome where
  status : Nat
  inserted : List ApiKeyRecord
  emailsSent : List EmailMessage
deriving DecidableEq

/-- The `serve` handler of `supabase/functions/stripe-webhook/index.ts`.

`verified` is the outcome of `stripe.webhooks.constructEventAsync` (its
`catch` returns status 400); `uuid` is the value `crypto.randomUUID()`
produced; `dbInsertError` is the `error` field of the Supabase insert
(`some` makes the handler return status 500 before any email).  A
`checkout.session.completed` session without a customer email throws
`"No email found in transaction"`, which the outer catch turns into a
500 response; any other event type is answered `"Event Ignored"` with
status 200.  A successful path inserts exactly one row and sends exactly
one email carrying the same plaintext key that was stored. -/
def handleWebhook (verified : Except String WebhookEvent) (uuid : List Char)
    (dbInsertError : Option String) : WebhookOutcome :=
  match verified with
  | .error _ => ⟨400, [], []⟩
  | .ok event =>
    if event.type = "checkout.session.completed" then
      match event.customerEmail with
      | none => ⟨500, [], []⟩
      | some customerEmail =>
        let newApiKey := mintKey uuid
        let record : ApiKeyRecord :=
          ⟨customerEmail, newApiKey, 1000000, true⟩
        match dbInsertError with
        | some _ => ⟨500, [], []⟩
        | none =>
          ⟨200, [record],
            [⟨customerEmail, "ACCESS GRANTED: Chambers Protocol API Key", newApiKey⟩]⟩
    else ⟨200, [], []⟩

/-- All `api_keys` rows minted across a sequence of webhook deliveries of
the payment-confirmation event for one checkout session (same customer
email each time, a fresh random UUID per delivery, no database errors). -/
def deliveredRecords (email : String) (uuids : List (List Char)) : List ApiKeyRecord :=
  (uuids.map (fun u =>
    (handleWebhook (.ok ⟨"checkout.session.completed", some email⟩) u none).inserted)).flatten

/-- Hex digits are never the dash character. -/
theorem isHexChar_ne_dash {x : Char} (h : isHexChar x = true) : (x != '-') = true := by
  rcases Bool.or_eq_true _ _ |>.mp h with h' | h' <;>
    · rcases Bool.and_eq_true _ _ |>.mp h' with ⟨h1, h2⟩
      have h1' := Char.le_def.mp (of_decide_eq_true h1)
      simp only [bne_iff_ne, ne_eq]
      intro hx
      subst hx
      simp [Char.le_def] at h1'

/-- Stripping the dashes of a well-formed UUID leaves exactly 32 hex digits. -/
theorem stripDashes_of_uuid {u : List Char} (h : IsUuidFormat u) :
    (stripDashes u).length = 32 ∧ ∀ x ∈ stripDashes u, isHexChar x = true := by
  obtain ⟨a, b, c, d, e, ha, hb, hc, hd, he, hhex, rfl⟩ := h
  have hfilter : ∀ l : List Char, (∀ x ∈ l, isHexChar x = true) →
      l.filter (fun c => c != '-') = l := fun l hl =>
    List.filter_eq_self.mpr (fun x hx => isHexChar_ne_dash (hl x hx))
  have hmem : ∀ x, (x ∈ a ∨ x ∈ b ∨ x ∈ c ∨ x ∈ d ∨ x ∈ e) → isHexChar x = true := by
    intro x hx
    apply hhex
    simp only [List.mem_append]
    tauto
  have hdash : ([ '-' ] : List Char).filter (fun c => c != '-') = [] := rfl
  have heq : stripDashes (a ++ ['-'] ++ b ++ ['-'] ++ c ++ ['-'] ++ d ++ ['-'] ++ e)
      = a ++ b ++ c ++ d ++ e := by
    simp only [stripDashes, List.filter_append, hdash, List.append_nil]
    rw [hfilter a (fun x hx => hmem x (Or.inl hx)),
        hfilter b (fun x hx => hmem x (Or.inr (Or.inl hx))),
        hfilter c (fun x hx => hmem x (Or.inr (Or.inr (Or.inl hx)))),
        hfilter d (fun x hx => hmem x (Or.inr (Or.inr (Or.inr (Or.inl hx))))),
        hfilter e (fun x hx => hmem x (Or.inr (Or.inr (Or.inr (Or.inr hx)))))]
  constructor
  · rw [heq]; simp [ha, hb, hc, hd, he]
  · intro x hx
    rw [heq] at hx
    apply hmem
    simp only [List.mem_append] at hx
    tauto

/-- A concrete value for `crypto.randomUUID()`, used in concrete runs. -/
def sampleUuid : List Char := "123e4567-e89b-12d3-a456-426614174000".data

/-- A second concrete UUID, for a replayed delivery of the same session. -/
def sampleUuid2 : List Char := "00112233-4455-6677-8899-aabbccddeeff".data

/-- C1: the claim says the stored credential field holds only a one-way
digest of the credential.  The code violates it: evaluating the webhook on
a confirmed checkout session shows that the value stored in the
`api_key_hash` column is the raw API key itself — the very same plaintext
string that is emailed to the customer — and not a digest (the source
comments "Storing raw for MVP, Hash in v2", contradicting the repository's
own `verification.md`). -/
theorem c1_webhook_stores_plaintext_key :
    (handleWebhook (.ok ⟨"checkout.session.completed", some "buyer@example.com"⟩)
        sampleUuid none).inserted.map (fun r => r.api_key_hash) = [mintKey sampleUuid] ∧
    (handleWebhook (.ok ⟨"checkout.session.completed", some "buyer@example.com"⟩)
        sampleUuid none).emailsSent.map (fun m => m.htmlKey) = [mintKey sampleUuid] := by
  constructor <;> rfl

/-- C2 counterexample: delivering the payment-confirmation event of the
same checkout session twice mints two identity records (and two distinct
API keys) — not at most one, as the claim requires.  The handler keeps no
record of processed sessions. -/
theorem c2_duplicate_delivery_mints_twice :
    (deliveredRecords "buyer@example.com" [sampleUuid, sampleUuid2]).length = 2 ∧
    ¬ (deliveredRecords "buyer@example.com" [sampleUuid, sampleUuid2]).length ≤ 1 := by
  constructor <;> decide

/-- C2 amended: the webhook mints exactly one identity record per
*delivered* `checkout.session.completed` event; it performs no
deduplication by checkout session, so K deliveries of the same session's
confirmation event mint K records and K API keys. -/
theorem c2_one_record_per_delivery :
    ∀ (email : String) (uuids : List (List Char)),
      (deliveredRecords email uuids).length = uuids.length := by
  intro email uuids
  induction uuids with
  | nil => rfl
  | cons u rest ih => simpa [deliveredRecords, handleWebhook] using ih

/-- C8: every record the webhook creates has `credits_remaining` exactly
1000000 and `is_active` true, and its key is "chambers_sk_" followed by
32 hexadecimal characters; the credit amount is the same fixed constant
for every session, independent of any purchase detail. -/
theorem c8_minted_record_shape :
    ∀ (uuid : List Char) (email : String), IsUuidFormat uuid →
      (handleWebhook (.ok ⟨"checkout.session.completed", some email⟩) uuid none).inserted
        = [⟨email, "chambers_sk_".data ++ stripDashes uuid, 1000000, true⟩] ∧
      (stripDashes uuid).length = 32 ∧
      (∀ x ∈ stripDashes uuid, isHexChar x = true) ∧
      (∀ (email2 : String) (uuid2 : List Char) (dbe : Option String),
        ∀ r ∈ (handleWebhook (.ok ⟨"checkout.session.completed", some email2⟩)
                  uuid2 dbe).inserted,
          r.credits_remaining = 1000000 ∧ r.is_active = true) := by
  intro uuid email hu
  obtain ⟨hlen, hhex⟩ := stripDashes_of_uuid hu
  refine ⟨by simp [handleWebhook, mintKey], hlen, hhex, ?_⟩
  intro email2 uuid2 dbe r hr
  cases dbe with
  | some e => simp [handleWebhook] at hr
  | none =>
    simp [handleWebhook] at hr
    simp [hr]

/-- Witness for C8 at a concrete UUID. -/
theorem c8_minted_record_shape_witness :
    (handleWebhook (.ok ⟨"checkout.session.completed", some "buyer@example.com"⟩)
        sampleUuid none).inserted
      = [⟨"buyer@example.com", "chambers_sk_".data ++ stripDashes sampleUuid,
          1000000, true⟩] ∧
    (stripDashes sampleUuid).length = 32 ∧
    (∀ x ∈ stripDashes sampleUuid, isHexChar x = true) ∧
    (∀ (email2 : String) (uuid2 : List Char) (dbe : Option String),
      ∀ r ∈ (handleWebhook (.ok ⟨"checkout.session.completed", some email2⟩)
                uuid2 dbe).inserted,
        r.credits_remaining = 1000000 ∧ r.is_active = true) :=
  c8_minted_record_shape sampleUuid "buyer@example.com"
    ⟨"123e4567".data, "e89b".data, "12d3".data, "a456".data, "426614174000".data,
      by decide, by decide, by decide, by decide, by decide, by decide, by decide⟩

/-- C9: the key-delivery email is sent only after the database insert
succeeded.  A failed insert yields status 500 and no email; a checkout
session with no customer email yields status 500 with no row inserted,
no key minted and no email; and whenever the insert fails, no execution
path sends an email. -/
theorem c9_email_only_after_successful_insert :
    ∀ (uuid : List Char) (err : String) (dbe : Option String) (email : String)
      (v : Except String WebhookEvent),
      handleWebhook (.ok ⟨"checkout.session.completed", some email⟩) uuid (some err)
        = ⟨500, [], []⟩ ∧
      handleWebhook (.ok ⟨"checkout.session.completed", none⟩) uuid dbe = ⟨500, [], []⟩ ∧
      (handleWebhook v uuid (some err)).emailsSent = [] := by
  intro uuid err dbe email v
  refine ⟨rfl, rfl, ?_⟩
  match v with
  | .error _ => rfl
  | .ok event =>
    by_cases h : event.type = "checkout.session.completed" <;>
      cases hm : event.customerEmail <;> simp [handleWebhook, h, hm]

/-- C10: a request failing signature verification is answered 400 with no
insert and no email; a verified event of any other type is answered 200
("Event Ignored") with no insert and no email. -/
theorem c10_rejected_requests_change_nothing :
    ∀ (msg : String) (uuid : List Char) (dbe : Option String) (t : String)
      (em : Option String),
      handleWebhook (.error msg) uuid dbe = ⟨400, [], []⟩ ∧
      (t ≠ "checkout.session.completed" →
        handleWebhook (.ok ⟨t, em⟩) uuid dbe = ⟨200, [], []⟩) := by
  intro msg uuid dbe t em
  exact ⟨rfl, fun h => by simp [handleWebhook, h]⟩

/-- Witness for C10 at concrete inputs. -/
theorem c10_rejected_requests_change_nothing_witness :
    handleWebhook (.error "Webhook Error: bad signature") sampleUuid none
      = ⟨400, [], []⟩ ∧
    handleWebhook (.ok ⟨"invoice.paid", some "buyer@example.com"⟩) sampleUuid none
      = ⟨200, [], []⟩ :=
  ⟨(c10_rejected_requests_change_nothing "Webhook Error: bad signature" sampleUuid
      none "invoice.paid" (some "buyer@example.com")).1,
   (c10_rejected_requests_change_nothing "Webhook Error: bad signature" sampleUuid
      none "invoice.paid" (some "buyer@example.com")).2 (by decide)⟩

/-- Modelled from the spec: the Balance Store's per-identity record
(spec §3) — one-way credential digest, contact reference, active flag,
and an integer credit balance with invariant `credits_remaining ≥ 0`.
The store implementation (Supabase tables behind `server.py`) is not in
the repository sources. -/
structure Identity where
  digest : String
  contact : String
  active : Bool
  credits_remaining : Int
deriving DecidableEq

/-- Modelled from the spec: an immutable Audit Ledger entry (spec §3) —
monotonic identifier, identity digest, operation tag, credits charged,
the fixed secondary usage fee (one cent), and the unique request id. -/
structure LedgerEntry where
  entry_id : Nat
  identity_digest : String
  operation : String
  credits_cost : Int
  usage_fee_cents : Nat
  request_id : String
deriving DecidableEq

/-- Modelled from the spec: denial reasons of the Consume Gate (spec §4.2). -/
inductive DenyReason where
  | unauthorized
  | insufficientCredits
  | backendUnavailable
deriving DecidableEq

/-- Modelled from the spec: `ConsumeCredits` result (spec §4.2) —
`Success{remaining_after}` or `Denied{reason}`. -/
inductive ConsumeResult where
  | success (remaining : Int)
  | denied (reason : DenyReason)
deriving DecidableEq

/-- Modelled from the spec: the shared durable state — the Balance Store's
identity records, the append-only Audit Ledger, and the record of request
ids that already produced a `Success` (with their `remaining_after`),
which backs the fixed idempotency policy of spec §4.2. -/
structure StoreState where
  identities : List Identity
  ledger : List LedgerEntry
  processed : List (String × Int)
deriving DecidableEq

/-- Look up the identity record for a digest. -/
def findIdentity (l : List Identity) (d : String) : Option Identity :=
  l.find? (fun i => i.digest == d)

/-- Look up the `remaining_after` recorded for a request id that already
produced a `Success`, if any. -/
def lookupProcessed (p : List (String × Int)) (rid : String) : Option Int :=
  (p.find? (fun q => q.1 == rid)).map (fun q => q.2)

/-- Overwrite the credit balance of the (first) record with the given
digest; every other record is untouched. -/
def setCredits (l : List Identity) (d : String) (v : Int) : List Identity :=
  match l with
  | [] => []
  | i :: rest =>
    if i.digest == d then { i with credits_remaining := v } :: rest
    else i :: setCredits rest d v

/-- Modelled from the spec: the Consume Gate's atomic
`ConsumeCredits(digest, cost, request_id)` (spec §4.2), whose
implementation (the Postgres `consume_credits` RPC called by `server.py`)
is not in the repository sources.  Within one serializable transaction:
if the store cannot be reached the call is denied `BackendUnavailable`
with no state change (fail-closed); a request id that already produced a
`Success` returns the original result unchanged and charges nothing (the
fixed idempotency policy); an unknown digest or an inactive identity is
denied `Unauthorized`; a balance below the cost is denied
`InsufficientCredits`; otherwise the balance is decremented by `cost`,
the corresponding ledger entry is appended in the same transaction, and
the request id is recorded.  Every denial leaves the state exactly as it
was. -/
def consumeCredits (s : StoreState) (digest : String) (cost : Int)
    (operation : String) (rid : String) (backendUp : Bool) :
    ConsumeResult × StoreState :=
  if !backendUp then (.denied .backendUnavailable, s)
  else
    match lookupProcessed s.processed rid with
    | some v => (.success v, s)
    | none =>
      match findIdentity s.identities digest with
      | none => (.denied .unauthorized, s)
      | some i =>
        if !i.active then (.denied .unauthorized, s)
        else if i.credits_remaining < cost then (.denied .insufficientCredits, s)
        else
          let remaining := i.credits_remaining - cost
          let entry : LedgerEntry :=
            ⟨s.ledger.length, digest, operation, cost, 1, rid⟩
          (.success remaining,
            ⟨setCredits s.identities digest remaining,
              s.ledger ++ [entry],
              (rid, remaining) :: s.processed⟩)

/-- Modelled from the spec: the Balance Store's
`CreateIdentity(digest, contact, initial_credits)` (spec §4.1), consumed
from the provisioning collaborator; fails with `AlreadyExists` when the
digest is already present, otherwise appends a fresh active record. -/
inductive CreateError where
  | alreadyExists
deriving DecidableEq

/-- Modelled from the spec: see `CreateError`; returns the outcome and the
resulting store state (unchanged on failure). -/
def createIdentity (s : StoreState) (d contact : String) (initial : Int) :
    Except CreateError Unit × StoreState :=
  match findIdentity s.identities d with
  | some _ => (.error .alreadyExists, s)
  | none => (.ok (), { s with identities := s.identities ++ [⟨d, contact, true, initial⟩] })

/-- Run a batch of `ConsumeCredits` calls (same digest, cost and
operation, one request id each) sequentially against the store; under the
spec's serializable semantics any concurrent schedule is equivalent to
such a sequential order.  Returns the per-call results in order and the
final state. -/
def runCalls (s : StoreState) (d : String) (c : Int) (op : String) :
    List String → List ConsumeResult × StoreState
  | [] => ([], s)
  | r :: rest =>
    let step := consumeCredits s d c op r true
    let next := runCalls step.2 d c op rest
    (step.1 :: next.1, next.2)

/-- Number of `Success` results in a batch. -/
def countSuccess (rs : List ConsumeResult) : Nat :=
  (rs.filter (fun r => match r with | .success _ => true | .denied _ => false)).length

/-- C3: `CreateIdentity` fails with `AlreadyExists` whenever the digest is
already present in the Balance Store, and in that case creates no new
record (the state is returned unchanged). -/
theorem c3_create_identity_already_exists :
    ∀ (s : StoreState) (d contact : String) (initial : Int) (i : Identity),
      findIdentity s.identities d = some i →
      createIdentity s d contact initial = (.error .alreadyExists, s) := by
  intro s d contact initial i h
  simp [createIdentity, h]

/-- Witness for C3: creating a digest that is already stored fails. -/
theorem c3_create_identity_already_exists_witness :
    createIdentity ⟨[⟨"abc", "buyer@example.com", true, 5⟩], [], []⟩ "abc"
        "other@example.com" 7
      = (.error .alreadyExists, ⟨[⟨"abc", "buyer@example.com", true, 5⟩], [], []⟩) :=
  c3_create_identity_already_exists ⟨[⟨"abc", "buyer@example.com", true, 5⟩], [], []⟩
    "abc" "other@example.com" 7 ⟨"abc", "buyer@example.com", true, 5⟩ (by decide)

/-- C4: every `Denied` outcome of `ConsumeCredits` — `Unauthorized`,
`InsufficientCredits` or `BackendUnavailable` — leaves the store state
(balances, ledger and idempotency record) exactly as it was. -/
theorem c4_denied_changes_nothing :
    ∀ (s : StoreState) (d : String) (c : Int) (op rid : String) (b : Bool)
      (r : DenyReason),
      (consumeCredits s d c op rid b).1 = .denied r →
      (consumeCredits s d c op rid b).2 = s := by
  intro s d c op rid b r h
  cases b with
  | false => rfl
  | true =>
    cases hl : lookupProcessed s.processed rid with
    | some v => exact absurd h (by simp [consumeCredits, hl])
    | none =>
      cases hf : findIdentity s.identities d with
      | none => simp [consumeCredits, hl, hf]
      | some i =>
        cases ha : i.active with
        | false => simp [consumeCredits, hl, hf, ha]
        | true =>
          by_cases hc : i.credits_remaining < c
          · simp [consumeCredits, hl, hf, ha, hc]
          · exact absurd h (by simp [consumeCredits, hl, hf, ha, hc])

/-- Witness for C4: an unknown digest is denied and the state is untouched. -/
theorem c4_denied_changes_nothing_witness :
    (consumeCredits ⟨[], [], []⟩ "deadbeef" 10 "protocol_compile" "r1" true).1
      = .denied .unauthorized ∧
    (consumeCredits ⟨[], [], []⟩ "deadbeef" 10 "protocol_compile" "r1" true).2
      = ⟨[], [], []⟩ :=
  ⟨by decide,
   c4_denied_changes_nothing ⟨[], [], []⟩ "deadbeef" 10 "protocol_compile" "r1" true
     .unauthorized (by decide)⟩

/-- C5: replaying a `request_id` that already produced a `Success` does not
charge again: the gate (under its fixed policy, which returns the original
result rather than rejecting) answers with the original `Success` value
and leaves the state unchanged; being a function of the state and the
request, the behavior is deterministic. -/
theorem c5_replay_does_not_double_charge :
    ∀ (s : StoreState) (d : String) (c : Int) (op rid : String) (b : Bool) (v : Int)
      (d' : String) (c' : Int) (op' : String),
      (consumeCredits s d c op rid b).1 = .success v →
      consumeCredits (consumeCredits s d c op rid b).2 d' c' op' rid true
        = (.success v, (consumeCredits s d c op rid b).2) := by
  intro s d c op rid b v d' c' op' h
  cases b with
  | false => exact absurd h (by simp [consumeCredits])
  | true =>
    cases hl : lookupProcessed s.processed rid with
    | some w =>
      have hv : w = v := by
        have := h
        simp [consumeCredits, hl] at this
        exact this
      subst hv
      simp [consumeCredits, hl]
    | none =>
      cases hf : findIdentity s.identities d with
      | none => exact absurd h (by simp [consumeCredits, hl, hf])
      | some i =>
        cases ha : i.active with
        | false => exact absurd h (by simp [consumeCredits, hl, hf, ha])
        | true =>
          by_cases hc : i.credits_remaining < c
          · exact absurd h (by simp [consumeCredits, hl, hf, ha, hc])
          · have hv : i.credits_remaining - c = v := by
              have := h
              simp [consumeCredits, hl, hf, ha, hc] at this
              exact this
            have hstep : consumeCredits s d c op rid true
                = (.success v,
                   ⟨setCredits s.identities d v,
                    s.ledger ++ [⟨s.ledger.length, d, op, c, 1, rid⟩],
                    (rid, v) :: s.processed⟩) := by
              simp [consumeCredits, hl, hf, ha, hc, hv]
            rw [hstep]
            have hlook : lookupProcessed ((rid, v) :: s.processed) rid = some v := by
              simp [lookupProcessed, List.find?]
            simp [consumeCredits, hlook]

/-- Witness for C5: a charge of 10 against a balance of 25 succeeds with 15
remaining; replaying the same request id returns `Success 15` again and
changes nothing. -/
theorem c5_replay_does_not_double_charge_witness :
    consumeCredits
        (consumeCredits ⟨[⟨"abc", "buyer@example.com", true, 25⟩], [], []⟩
          "abc" 10 "protocol_compile" "r1" true).2
        "abc" 10 "protocol_compile" "r1" true
      = (.success 15,
         (consumeCredits ⟨[⟨"abc", "buyer@example.com", true, 25⟩], [], []⟩
           "abc" 10 "protocol_compile" "r1" true).2) :=
  c5_replay_does_not_double_charge ⟨[⟨"abc", "buyer@example.com", true, 25⟩], [], []⟩
    "abc" 10 "protocol_compile" "r1" true 15 "abc" 10 "protocol_compile" (by decide)

/-- The store of spec §8 Scenario A: one active identity with balance 25. -/
def scenarioAState : StoreState :=
  ⟨[⟨"abc", "buyer@example.com", true, 25⟩], [], []⟩

/-- First Scenario A call: cost 10 against balance 25. -/
def scenarioACall1 : ConsumeResult × StoreState :=
  consumeCredits scenarioAState "abc" 10 "protocol_compile" "r1" true

/-- Second Scenario A call: cost 10 against the state after the first. -/
def scenarioACall2 : ConsumeResult × StoreState :=
  consumeCredits scenarioACall1.2 "abc" 10 "protocol_compile" "r2" true

/-- Third Scenario A call: cost 10 against the state after the second. -/
def scenarioACall3 : ConsumeResult × StoreState :=
  consumeCredits scenarioACall2.2 "abc" 10 "protocol_compile" "r3" true

/-- C7: Scenario A — starting from balance 25 with cost 10, the first and
second calls succeed (remaining 15 then 5), the third is denied
`InsufficientCredits`, and the balance stays at 5. -/
theorem c7_scenario_a :
    scenarioACall1.1 = .success 15 ∧
    scenarioACall2.1 = .success 5 ∧
    findIdentity scenarioACall2.2.identities "abc"
      = some ⟨"abc", "buyer@example.com", true, 5⟩ ∧
    scenarioACall3.1 = .denied .insufficientCredits ∧
    findIdentity scenarioACall3.2.identities "abc"
      = some ⟨"abc", "buyer@example.com", true, 5⟩ := by
  refine ⟨?_, ?_, ?_, ?_, ?_⟩ <;> decide

/-- `runCalls` on a nonempty batch: one gate call, then the rest. -/
theorem runCalls_cons (s : StoreState) (d : String) (c : Int) (op r : String)
    (rest : List String) :
    runCalls s d c op (r :: rest)
      = ((consumeCredits s d c op r true).1
            :: (runCalls (consumeCredits s d c op r true).2 d c op rest).1,
         (runCalls (consumeCredits s d c op r true).2 d c op rest).2) := rfl

/-- A `Success` at the head adds one to the success count. -/
theorem countSuccess_cons_success (v : Int) (l : List ConsumeResult) :
    countSuccess (.success v :: l) = countSuccess l + 1 := by
  simp [countSuccess]

/-- A `Denied` at the head leaves the success count unchanged. -/
theorem countSuccess_cons_denied (r : DenyReason) (l : List ConsumeResult) :
    countSuccess (.denied r :: l) = countSuccess l := by
  simp [countSuccess]

/-- Overwriting the balance of a digest rewrites exactly that record in the
lookup view. -/
theorem findIdentity_setCredits_self (l : List Identity) (d : String) (v : Int) :
    findIdentity (setCredits l d v) d
      = (findIdentity l d).map (fun i => { i with credits_remaining := v }) := by
  induction l with
  | nil => rfl
  | cons i rest ih =>
    by_cases h : (i.digest == d) = true
    · simp [setCredits, findIdentity, List.find?, h]
    · simp only [setCredits, if_neg h]
      simpa [findIdentity, List.find?, h] using ih

/-- Recording a `Success` for one request id does not affect the lookup of
any other request id. -/
theorem lookupProcessed_cons_ne (p : List (String × Int)) (r0 : String) (v0 : Int)
    (r : String) (h : r ≠ r0) :
    lookupProcessed ((r0, v0) :: p) r = lookupProcessed p r := by
  have hb : (r0 == r) = false := beq_eq_false_iff_ne.mpr (Ne.symm h)
  simp [lookupProcessed, List.find?, hb]

/-- Core counting invariant: starting from an active identity with balance
`b`, a batch of fresh, pairwise-distinct request ids of cost `c` produces
exactly `min batch-size (b / c)` successes and leaves the balance at
`b − c · min batch-size (b / c)` (a natural number: it never drops below
zero, no decrement is lost and none is double-applied). -/
theorem runCalls_count (d op contact : String) (c : Nat) (hc : 0 < c) :
    ∀ (rids : List String) (s : StoreState) (b : Nat),
      findIdentity s.identities d = some ⟨d, contact, true, (b : Int)⟩ →
      (∀ r ∈ rids, lookupProcessed s.processed r = none) →
      rids.Nodup →
      countSuccess (runCalls s d (c : Int) op rids).1 = min rids.length (b / c) ∧
      findIdentity (runCalls s d (c : Int) op rids).2.identities d
        = some ⟨d, contact, true, ((b - c * min rids.length (b / c) : Nat) : Int)⟩ := by
  intro rids
  induction rids with
  | nil =>
    intro s b hid hfresh hnd
    constructor
    · simp [runCalls, countSuccess]
    · simpa [runCalls] using hid
  | cons r rest ih =>
    intro s b hid hfresh hnd
    have hr : lookupProcessed s.processed r = none := hfresh r (by simp)
    by_cases hbc : b < c
    · have hlt : (b : Int) < (c : Int) := by exact_mod_cast hbc
      have hdiv : b / c = 0 := Nat.div_eq_of_lt hbc
      have hstep : consumeCredits s d (c : Int) op r true
          = (.denied .insufficientCredits, s) := by
        simp [consumeCredits, hr, hid, hlt]
      obtain ⟨ih1, ih2⟩ := ih s b hid
        (fun r' hr' => hfresh r' (by simp [hr']))
        (List.Nodup.of_cons hnd)
      constructor
      · simp only [runCalls_cons, hstep, List.length_cons]
        rw [countSuccess_cons_denied, ih1, hdiv]
        simp
      · simp only [runCalls_cons, hstep, List.length_cons]
        rw [ih2, hdiv]
        simp
    · have hcb : c ≤ b := Nat.le_of_not_lt hbc
      have hge : ¬ ((b : Int) < (c : Int)) := by exact_mod_cast Nat.not_lt.mpr hcb
      have hcast : (b : Int) - (c : Int) = ((b - c : Nat) : Int) :=
        (Nat.cast_sub hcb).symm
      have hstep : consumeCredits s d (c : Int) op r true
          = (.success ((b - c : Nat) : Int),
             ⟨setCredits s.identities d ((b - c : Nat) : Int),
              s.ledger ++ [⟨s.ledger.length, d, op, (c : Int), 1, r⟩],
              (r, ((b - c : Nat) : Int)) :: s.processed⟩) := by
        simp [consumeCredits, hr, hid, hge, hcast]
      have hid' : findIdentity (setCredits s.identities d ((b - c : Nat) : Int)) d
          = some ⟨d, contact, true, ((b - c : Nat) : Int)⟩ := by
        rw [findIdentity_setCredits_self, hid]; rfl
      have hnotin : r ∉ rest := (List.nodup_cons.mp hnd).1
      have hfresh' : ∀ r' ∈ rest,
          lookupProcessed ((r, ((b - c : Nat) : Int)) :: s.processed) r' = none := by
        intro r' hr'
        have hne : r' ≠ r := fun he => hnotin (he ▸ hr')
        rw [lookupProcessed_cons_ne _ _ _ _ hne]
        exact hfresh r' (by simp [hr'])
      obtain ⟨ih1, ih2⟩ := ih
        ⟨setCredits s.identities d ((b - c : Nat) : Int),
         s.ledger ++ [⟨s.ledger.length, d, op, (c : Int), 1, r⟩],
         (r, ((b - c : Nat) : Int)) :: s.processed⟩
        (b - c) hid' hfresh' (List.Nodup.of_cons hnd)
      have hdiv : b / c = (b - c) / c + 1 := by
        rw [Nat.div_eq b c, if_pos ⟨hc, hcb⟩]
      have hmin : min (rest.length + 1) (b / c)
          = min rest.length ((b - c) / c) + 1 := by
        rw [hdiv]; omega
      have hmul : c * (min rest.length ((b - c) / c) + 1)
          = c * min rest.length ((b - c) / c) + c := by ring
      have hsub : b - c - c * min rest.length ((b - c) / c)
          = b - (c * min rest.length ((b - c) / c) + c) := by
        rw [Nat.sub_sub, Nat.add_comm c (c * min rest.length ((b - c) / c))]
      constructor
      · simp only [runCalls_cons, hstep, List.length_cons]
        rw [countSuccess_cons_success, ih1, hmin]
      · simp only [runCalls_cons, hstep, List.length_cons]
        rw [ih2, hmin, hmul, hsub]

/-- C6 counterexample: the claim requires exactly `floor(B / c)` calls to
succeed for *every* `N`; with balance 20, cost 10 and a single call
(`N = 1`), exactly one call succeeds while `floor(20 / 10) = 2`. -/
theorem c6_floor_count_counterexample :
    countSuccess (runCalls ⟨[⟨"abc", "buyer@example.com", true, (20 : Int)⟩], [], []⟩
        "abc" 10 "protocol_compile" ["r1"]).1 = 1 ∧
    (20 : Nat) / 10 = 2 ∧ (1 : Nat) ≠ 2 := by
  refine ⟨?_, ?_, ?_⟩ <;> decide

/-- C6 amended: under `N` serialized-concurrent `ConsumeCredits` calls of
positive cost `c` against one identity with balance `B`, exactly
`min(N, floor(B / c))` calls succeed and the final balance is
`B − c · min(N, floor(B / c))` — a natural number, so the balance never
goes below zero, and the exact count shows no decrement is lost or
double-applied. -/
theorem c6_concurrent_consume_amended :
    ∀ (B c : Nat), 0 < c →
    ∀ (rids : List String) (d op contact : String) (ledger : List LedgerEntry),
      rids.Nodup →
      countSuccess (runCalls ⟨[⟨d, contact, true, (B : Int)⟩], ledger, []⟩ d (c : Int)
          op rids).1 = min rids.length (B / c) ∧
      findIdentity (runCalls ⟨[⟨d, contact, true, (B : Int)⟩], ledger, []⟩ d (c : Int)
          op rids).2.identities d
        = some ⟨d, contact, true, ((B - c * min rids.length (B / c) : Nat) : Int)⟩ := by
  intro B c hc rids d op contact ledger hnd
  exact runCalls_count d op contact c hc rids
    ⟨[⟨d, contact, true, (B : Int)⟩], ledger, []⟩ B
    (by simp [findIdentity, List.find?]) (fun r hr => rfl) hnd

/-- Witness for C6 amended: balance 25, cost 10, three distinct request
ids — two calls succeed (`min(3, 2) = 2`) and the balance ends at 5. -/
theorem c6_concurrent_consume_amended_witness :
    countSuccess (runCalls ⟨[⟨"abc", "buyer@example.com", true, ((25 : Nat) : Int)⟩],
        [], []⟩ "abc" ((10 : Nat) : Int) "protocol_compile" ["r1", "r2", "r3"]).1
      = min (["r1", "r2", "r3"] : List String).length (25 / 10) ∧
    findIdentity (runCalls ⟨[⟨"abc", "buyer@example.com", true, ((25 : Nat) : Int)⟩],
        [], []⟩ "abc" ((10 : Nat) : Int) "protocol_compile"
        ["r1", "r2", "r3"]).2.identities "abc"
      = some ⟨"abc", "buyer@example.com", true,
          ((25 - 10 * min (["r1", "r2", "r3"] : List String).length (25 / 10)
            : Nat) : Int)⟩ :=
  c6_concurrent_consume_amended 25 10 (by decide) ["r1", "r2", "r3"] "abc"
    "protocol_compile" "buyer@example.com" [] (by decide)
